import Mathlib

/-!
Verification development for the TUDM artifact-log ingestion pipeline.

The Python sources embedded here are src/body.py (bodyfile stat-log
ingestion), src/ps_-axo_pid_user_etime_args.py (process-listing
ingestion) and the coordinator logic in their main functions.  Pure
functions are translated to Lean functions; file and queue I/O becomes
explicit data passed in; Python exceptions become Except/Option results.
-/

/-! ### Python primitives: str.strip and int() -/

/-- The ASCII whitespace characters stripped by Python str.strip(). -/
def isPyWhitespace (c : Char) : Bool :=
  c = ' ' ∨ c = '\t' ∨ c = '\n' ∨ c = '\x0d' ∨ c = '\x0b' ∨ c = '\x0c'

/-- Strip leading and trailing whitespace from a char list, as Python
str.strip() does. -/
def stripChars (cs : List Char) : List Char :=
  ((cs.dropWhile isPyWhitespace).reverse.dropWhile isPyWhitespace).reverse

/-- Python str.strip(). -/
def pyStrip (s : String) : String :=
  String.mk (stripChars s.data)

/-- Numeric value of an ASCII digit character. -/
def charVal (c : Char) : Nat := c.toNat - 48

/-- Parse an unsigned decimal digit run as Python int() accepts it after
the sign: digits, with single underscores allowed between digits, and the
whole remaining input must be consumed.  Models the digit grammar of the
Python int() builtin. -/
def parseDigitsGo (acc : Nat) : List Char → Option Nat
  | [] => some acc
  | c :: rest =>
    if c.isDigit then parseDigitsGo (acc * 10 + charVal c) rest
    else if c = '_' then
      match rest with
      | [] => none
      | d :: rest' => if d.isDigit then parseDigitsGo (acc * 10 + charVal d) rest' else none
    else none

/-- Parse a nonempty digit run (underscore-separated groups allowed). -/
def parseDigitsU : List Char → Option Nat
  | [] => none
  | c :: rest => if c.isDigit then parseDigitsGo (charVal c) rest else none

/-- Modelled from the Python builtin int(str): optional surrounding
whitespace, optional sign, then decimal digits with optional single
underscores between digits.  Returns none where int() raises ValueError. -/
def pythonInt (s : String) : Option Int :=
  match stripChars s.data with
  | [] => none
  | c :: rest =>
    if c = '+' then (parseDigitsU rest).map Int.ofNat
    else if c = '-' then (parseDigitsU rest).map (fun n => -(n : Int))
    else (parseDigitsU (c :: rest)).map Int.ofNat

/-! ### Timestamp rendering: datetime.fromtimestamp(_, utc).strftime -/

/-- One zero-padded decimal digit of n (10^k place). -/
def digitAt (n k : Nat) : Char := Char.ofNat (48 + n / 10 ^ k % 10)

/-- Two-digit zero-padded decimal rendering, as strftime %m, %d, %H, %M,
%S produce for values below 100. -/
def pad2 (n : Nat) : String := String.mk [digitAt n 1, digitAt n 0]

/-- Four-digit zero-padded decimal rendering, as strftime %Y documents
for years up to 9999. -/
def pad4 (n : Nat) : String := String.mk [digitAt n 3, digitAt n 2, digitAt n 1, digitAt n 0]

/-- Render date-time fields in the strftime format used by both parsers,
the ISO-8601 basic combined form at second precision. -/
def isoRender (y mo d h mi s : Nat) : String :=
  pad4 y ++ "-" ++ pad2 mo ++ "-" ++ pad2 d ++ "T" ++ pad2 h ++ ":" ++ pad2 mi ++ ":" ++ pad2 s

/-- Lowest epoch-seconds value datetime.fromtimestamp accepts
(0001-01-01T00:00:00 UTC). -/
def minTimestamp : Int := -62135596800

/-- Highest integral epoch-seconds value datetime.fromtimestamp accepts
(9999-12-31T23:59:59 UTC). -/
def maxTimestamp : Int := 253402300799

/-- The (year, month, day, hour, minute, second) UTC fields of an
epoch-seconds count, by the standard civil-from-days calendar algorithm
on days since 0001-01-01; the field computation performed inside
datetime.fromtimestamp(n, timezone.utc). -/
def civilFields (n : Int) : Nat × Nat × Nat × Nat × Nat × Nat :=
  let t : Nat := (n + 62135596800).toNat
  let z : Nat := t / 86400 + 306
  let secs : Nat := t % 86400
  let era := z / 146097
  let doe := z % 146097
  let yoe := (doe - doe / 1460 + doe / 36524 - doe / 146096) / 365
  let doy := doe - (365 * yoe + yoe / 4 - yoe / 100)
  let mp := (5 * doy + 2) / 153
  let d := doy - (153 * mp + 2) / 5 + 1
  let m := if mp < 10 then mp + 3 else mp - 9
  let y := yoe + era * 400 + (if m ≤ 2 then 1 else 0)
  (y, m, d, secs / 3600, secs % 3600 / 60, secs % 60)

/-- Modelled from the Python standard library:
datetime.fromtimestamp(n, timezone.utc).strftime of the format
%Y-%m-%dT%H:%M:%S, for n in the accepted range. -/
def formatTimestamp (n : Int) : String :=
  let f := civilFields n
  isoRender f.1 f.2.1 f.2.2.1 f.2.2.2.1 f.2.2.2.2.1 f.2.2.2.2.2

/-- StatLogParser.to_iso and PsAxoLogParser.to_iso (identical code):
interpret the string as integer epoch seconds and render in UTC at second
precision; any conversion error (ValueError, OverflowError, out-of-range
date) is swallowed by the bare except and yields None. -/
def to_iso (ts : String) : Option String :=
  match pythonInt ts with
  | none => none
  | some n =>
    if minTimestamp ≤ n ∧ n ≤ maxTimestamp then some (formatTimestamp n) else none

inductive Tok where
  | lit : String → Tok
  | num : String → Tok
  | data : String → Tok
  | user : String → Tok
  | time : String → Tok
  | ws : Tok
  | greedy : String → Tok
deriving Repr

/-- The negative lookbehind of BASE10NUM: the preceding char (if any)
must not be a digit, dot or sign. -/
def lookbehindOk : Option Char → Bool
  | none => true
  | some c => !(c.isDigit || c = '.' || c = '+' || c = '-')

/-- Maximal digit run split. -/
def takeDigitRun (cs : List Char) : List Char × List Char :=
  (cs.takeWhile Char.isDigit, cs.dropWhile Char.isDigit)

/-- The atomic body of grok NUMBER:
[+-]? then digits with optional fraction, or dot-fraction; greedy and
committed (no backtracking into it), hence a deterministic scan. -/
def base10num (cs : List Char) : Option (List Char × List Char) :=
  let signSplit : List Char × List Char :=
    match cs with
    | c :: t => if c = '+' ∨ c = '-' then ([c], t) else ([], cs)
    | [] => ([], cs)
  let sign := signSplit.1
  let cs1 := signSplit.2
  match takeDigitRun cs1 with
  | ([], _) =>
    match cs1 with
    | '.' :: t =>
      match takeDigitRun t with
      | ([], _) => none
      | (ds, rest) => some (sign ++ '.' :: ds, rest)
    | _ => none
  | (ds, rest1) =>
    match rest1 with
    | '.' :: t =>
      match takeDigitRun t with
      | ([], _) => some (sign ++ ds, rest1)
      | (fs, rest2) => some (sign ++ ds ++ '.' :: fs, rest2)
    | _ => some (sign ++ ds, rest1)

/-- Drop an expected literal char sequence. -/
def dropLit : List Char → List Char → Option (List Char)
  | [], cs => some cs
  | l :: ls, c :: cs => if c = l then dropLit ls cs else none
  | _ :: _, [] => none

/-- grok USER charclass [a-zA-Z0-9._-]. -/
def isUserChar (c : Char) : Bool :=
  c.isAlphanum || c = '.' || c = '_' || c = '-'

/-- HOUR alternatives of grok TIME, in regex alternation order:
2[0123] first, then [01]?[0-9] (two digits before one). -/
def hourCands (cs : List Char) : List (List Char × List Char) :=
  (match cs with
   | a :: b :: t =>
     (if a = '2' ∧ (b = '0' ∨ b = '1' ∨ b = '2' ∨ b = '3') then [([a, b], t)] else []) ++
     (if (a = '0' ∨ a = '1') ∧ b.isDigit then [([a, b], t)] else [])
   | _ => []) ++
  (match cs with
   | a :: t => if a.isDigit then [([a], t)] else []
   | _ => [])

/-- MINUTE of grok TIME: [0-5][0-9]. -/
def minuteCand (cs : List Char) : List (List Char × List Char) :=
  match cs with
  | a :: b :: t =>
    if (48 ≤ a.toNat ∧ a.toNat ≤ 53) ∧ b.isDigit then [([a, b], t)] else []
  | _ => []

/-- The [:.,][0-9]+ fraction of grok SECOND, digits greedy (longest
first); candidates in backtracking order. -/
def fracCands : List Char → List (List Char × List Char)
  | c :: t =>
    if c = ':' ∨ c = '.' ∨ c = ',' then
      let m := (t.takeWhile Char.isDigit).length
      (List.range m).map (fun i => (c :: t.take (m - i), t.drop (m - i)))
    else []
  | [] => []

/-- SECOND of grok TIME: ([0-5]?[0-9]|60) then an optional fraction,
candidates in regex backtracking order. -/
def secondCands (cs : List Char) : List (List Char × List Char) :=
  let base :=
    (match cs with
     | a :: b :: t => if (48 ≤ a.toNat ∧ a.toNat ≤ 53) ∧ b.isDigit then [([a, b], t)] else []
     | _ => []) ++
    (match cs with
     | a :: t => if a.isDigit then [([a], t)] else []
     | _ => []) ++
    (match cs with
     | a :: b :: t => if a = '6' ∧ b = '0' then [([a, b], t)] else []
     | _ => [])
  base.flatMap fun bc =>
    ((fracCands bc.2).map fun fc => (bc.1 ++ fc.1, fc.2)) ++ [bc]

/-- grok TIME: HOUR : MINUTE : SECOND candidates in backtracking order. -/
def timeCands (cs : List Char) : List (List Char × List Char) :=
  (hourCands cs).flatMap fun hc =>
    match hc.2 with
    | c1 :: r2 =>
      if c1 = ':' then
        (minuteCand r2).flatMap fun mc =>
          match mc.2 with
          | c2 :: r4 =>
            if c2 = ':' then
              (secondCands r4).map fun sc => (hc.1 ++ c1 :: (mc.1 ++ c2 :: sc.1), sc.2)
            else []
          | [] => []
      else []
    | [] => []

/-- The trailing (?![0-9]) lookahead of grok TIME. -/
def noDigitAhead : List Char → Bool
  | c :: _ => !c.isDigit
  | [] => true

/-- The leading (?!<[0-9]) lookahead of grok TIME. -/
def timeLeadOk : List Char → Bool
  | '<' :: d :: _ => !d.isDigit
  | _ => true

/-- Update the lookbehind char after consuming a capture. -/
def nextPrev (taken : List Char) (prev : Option Char) : Option Char :=
  match taken.getLast? with
  | some c => some c
  | none => prev

/-- Match a token sequence against a char list starting exactly here
(the overall search supplies start offsets), with the char preceding the
start for lookbehinds.  Returns the named captures of the first match in
the regex engine's backtracking order, or none. -/
def matchToks : List Tok → Option Char → List Char → Option (List (String × String))
  | [], _, _ => some []
  | .lit s :: rest, prev, cs =>
    match dropLit s.data cs with
    | some cs' => matchToks rest (nextPrev s.data prev) cs'
    | none => none
  | .num name :: rest, prev, cs =>
    if lookbehindOk prev then
      match base10num cs with
      | some (cap, cs') =>
        (matchToks rest (nextPrev cap prev) cs').map (fun caps => (name, String.mk cap) :: caps)
      | none => none
    else none
  | .data name :: rest, prev, cs =>
    (List.range (cs.length + 1)).findSome? fun k =>
      let taken := cs.take k
      if taken.all (fun c => c ≠ '\n') then
        (matchToks rest (nextPrev taken prev) (cs.drop k)).map
          (fun caps => (name, String.mk taken) :: caps)
      else none
  | .user name :: rest, prev, cs =>
    let m := (cs.takeWhile isUserChar).length
    (List.range m).findSome? fun i =>
      let taken := cs.take (m - i)
      (matchToks rest (nextPrev taken prev) (cs.drop (m - i))).map
        (fun caps => (name, String.mk taken) :: caps)
  | .time name :: rest, prev, cs =>
    if timeLeadOk cs then
      (timeCands cs).findSome? fun cand =>
        if noDigitAhead cand.2 then
          (matchToks rest (nextPrev cand.1 prev) cand.2).map
            (fun caps => (name, String.mk cand.1) :: caps)
        else none
    else none
  | .ws :: rest, prev, cs =>
    let m := (cs.takeWhile isPyWhitespace).length
    (List.range m).findSome? fun i =>
      let taken := cs.take (m - i)
      matchToks rest (nextPrev taken prev) (cs.drop (m - i))
  | .greedy name :: rest, prev, cs =>
    let m := (cs.takeWhile (fun c => c ≠ '\n')).length
    (List.range (m + 1)).findSome? fun i =>
      let taken := cs.take (m - i)
      (matchToks rest (nextPrev taken prev) (cs.drop (m - i))).map
        (fun caps => (name, String.mk taken) :: caps)

/-- Lookbehind char for an unanchored search offset. -/
def prevAt (cs : List Char) (off : Nat) : Option Char :=
  if off = 0 then none else (cs.take off).getLast?

/-- pygrok Grok.match: unanchored regex search (leftmost start wins),
returning named captures or none. -/
def grokSearch (toks : List Tok) (s : String) : Option (List (String × String)) :=
  (List.range (s.data.length + 1)).findSome? fun off =>
    matchToks toks (prevAt s.data off) (s.data.drop off)

/-- Dict lookup on a capture set (Python match.get / match[k]). -/
def capGet (m : List (String × String)) (k : String) : Option String :=
  (m.find? (fun kv => kv.1 = k)).map (fun kv => kv.2)

/-! ### GROK_PATTERNS of src/body.py and the pattern of the ps parser -/

/-- GROK_PATTERNS[0]: regular path with btime (11 pipe fields). -/
def statPat0 : List Tok :=
  [.num "inode", .lit "|", .data "path", .lit "|", .num "block_count", .lit "|",
   .data "permissions", .lit "|", .num "uid", .lit "|", .num "gid", .lit "|",
   .num "size", .lit "|", .num "mtime", .lit "|", .num "ctime", .lit "|",
   .num "atime", .lit "|", .num "btime"]

/-- GROK_PATTERNS[1]: symlink path with btime. -/
def statPat1 : List Tok :=
  [.num "inode", .lit "|", .data "symlink_path", .lit " -> ", .data "symlink_target",
   .lit "|", .num "block_count", .lit "|", .data "permissions", .lit "|",
   .num "uid", .lit "|", .num "gid", .lit "|", .num "size", .lit "|",
   .num "mtime", .lit "|", .num "ctime", .lit "|", .num "atime", .lit "|", .num "btime"]

/-- GROK_PATTERNS[2]: regular path without btime (10 pipe fields). -/
def statPat2 : List Tok :=
  [.num "inode", .lit "|", .data "path", .lit "|", .num "block_count", .lit "|",
   .data "permissions", .lit "|", .num "uid", .lit "|", .num "gid", .lit "|",
   .num "size", .lit "|", .num "mtime", .lit "|", .num "ctime", .lit "|", .num "atime"]

/-- GROK_PATTERNS[3]: symlink path without btime. -/
def statPat3 : List Tok :=
  [.num "inode", .lit "|", .data "symlink_path", .lit " -> ", .data "symlink_target",
   .lit "|", .num "block_count", .lit "|", .data "permissions", .lit "|",
   .num "uid", .lit "|", .num "gid", .lit "|", .num "size", .lit "|",
   .num "mtime", .lit "|", .num "ctime", .lit "|", .num "atime"]

/-- The ordered GROK_PATTERNS list of src/body.py. -/
def GROK_PATTERNS : List (List Tok) := [statPat0, statPat1, statPat2, statPat3]

/-- The single pattern of PS_AXO_GROK_PATTERNS in the ps parser. -/
def psAxoPat : List Tok :=
  [.num "pid", .ws, .num "ppid", .ws, .user "user", .ws, .time "elapsed", .ws,
   .greedy "command_line"]

/-- The per-line pattern loop of StatLogParser.process: try the patterns
in order, first match wins (break). -/
def cascadeMatch (line : String) : Option (List (String × String)) :=
  GROK_PATTERNS.findSome? fun p => grokSearch p line

/-! ### NormalizedEvent values (the JSON written per event) -/

inductive Json where
  | null : Json
  | str : String → Json
  | num : Int → Json
  | obj : List (String × Json) → Json
  | arr : List Json → Json

/-- A Python optional string as a JSON field value (json.dump writes
None as null). -/
def optStr : Option String → Json
  | none => Json.null
  | some s => Json.str s

/-- Member lookup on a JSON object value. -/
def jsonGet (j : Json) (k : String) : Option Json :=
  match j with
  | Json.obj fields => (fields.find? (fun kv => kv.1 = k)).map (fun kv => kv.2)
  | _ => none

/-- The member names of a JSON object value. -/
def jsonKeys (j : Json) : List String :=
  match j with
  | Json.obj fields => fields.map (fun kv => kv.1)
  | _ => []

/-- Python dict subscript match[k]: KeyError (modelled as Except.error)
when the capture is absent. -/
def expectKey (m : List (String × String)) (k : String) : Except Unit String :=
  match capGet m k with
  | some v => Except.ok v
  | none => Except.error ()

/-- Python int() where failure raises: ValueError becomes Except.error. -/
def pyIntOrRaise (s : String) : Except Unit Int :=
  match pythonInt s with
  | some v => Except.ok v
  | none => Except.error ()

/-- The symlink handling at the top of the per-match block: when both
symlink captures are present the target becomes the path and the source
is kept as the symlink attribute, otherwise path is match.get of path
and there is no symlink value. -/
def pathSymOf (m : List (String × String)) : Option String × Option String :=
  match capGet m "symlink_path", capGet m "symlink_target" with
  | some sp, some st => (some st, some sp)
  | _, _ => (capGet m "path", none)

/-- The capture fields the per-match block reads with raising dict
subscripts, size already through int(). -/
structure StatStrings where
  inode : String
  size : Int
  mtime : String
  atime : String
  block_count : String
  permissions : String
  uid : String
  gid : String
  ctime : String

/-- The raising part of the per-match block: the match[k] subscripts in
source order and int(match[size]); Except.error models the exception
escaping the line loop (ValueError on a fractional size, or KeyError). -/
def statStringsOf (m : List (String × String)) : Except Unit StatStrings := do
  let inode ← expectKey m "inode"
  let size ← pyIntOrRaise (← expectKey m "size")
  let mtime ← expectKey m "mtime"
  let atime ← expectKey m "atime"
  let blockCount ← expectKey m "block_count"
  let permissions ← expectKey m "permissions"
  let uid ← expectKey m "uid"
  let gid ← expectKey m "gid"
  let ctime ← expectKey m "ctime"
  Except.ok ⟨inode, size, mtime, atime, blockCount, permissions, uid, gid, ctime⟩

/-- The base_event dict of StatLogParser.process, including the
comprehension that removes None values from the additional group (and
from it only), and the Python truthiness tests on btime and
symlink_path. -/
def mkStatEvent (hostname : String) (ss : StatStrings)
    (pathSym : Option String × Option String) (btime : Option String) : Json :=
  let createTime : Json :=
    match btime with
    | none => Json.null
    | some b => if b = "" then Json.null else optStr (to_iso b)
  let symlinkVal : Json :=
    match pathSym.2 with
    | none => Json.null
    | some sp => if sp = "" then Json.null else Json.str sp
  let additionalAll : List (String × Json) :=
    [("symlink", symlinkVal),
     ("block_count", Json.str ss.block_count),
     ("permissions", Json.str ss.permissions),
     ("uid", Json.str ss.uid),
     ("gid", Json.str ss.gid),
     ("metadata_change_time", optStr (to_iso ss.ctime))]
  let additional := additionalAll.filter fun kv =>
    match kv.2 with
    | Json.null => false
    | _ => true
  Json.obj
    [("principal", Json.obj
      [("process", Json.obj
        [("command_line", Json.str "stat"),
         ("file", Json.obj [("stat_inode", Json.str ss.inode)])]),
       ("hostname", Json.str hostname),
       ("file", Json.obj
        [("full_path", optStr pathSym.1),
         ("size", Json.num ss.size),
         ("last_modification_time", optStr (to_iso ss.mtime)),
         ("last_access_time", optStr (to_iso ss.atime)),
         ("create_time", createTime)])]),
     ("metadata", Json.obj
      [("event_type", Json.str "FILE_READ"),
       ("product_name", Json.str "Linux"),
       ("vendor_name", Json.str "Juniper"),
       ("log_type", Json.str "Host")]),
     ("intermediary", Json.obj [("namespace", Json.str "UnixArtifactCollector")]),
     ("additional", Json.obj additional)]

/-- The per-match event construction of StatLogParser.process (lines
49-97 of src/body.py): symlink split, optional btime, the nested
base_event dict. -/
def buildStatEvent (hostname : String) (m : List (String × String)) : Except Unit Json :=
  (statStringsOf m).map fun ss => mkStatEvent hostname ss (pathSymOf m) (capGet m "btime")

/-! ### Per-host processing (StatLogParser.process, PsAxoLogParser.process) -/

/-- The running counters and event buffer of the line loop. -/
structure StatAcc where
  events : List Json
  totalLines : Nat
  successCount : Nat
  failCount : Nat

/-- The line loop of StatLogParser.process: each line is counted, then
matched against the cascade; a match builds and buffers an event and
counts a success, otherwise the failure counter is bumped.  An exception
from event construction aborts the whole loop (Except.error). -/
def processStatGo (hostname : String) (acc : StatAcc) : List String → Except Unit StatAcc
  | [] => Except.ok acc
  | line :: rest =>
    match cascadeMatch (pyStrip line) with
    | some m =>
      match buildStatEvent hostname m with
      | Except.ok ev =>
        processStatGo hostname
          ⟨acc.events ++ [ev], acc.totalLines + 1, acc.successCount + 1, acc.failCount⟩ rest
      | Except.error e => Except.error e
    | none =>
      processStatGo hostname
        ⟨acc.events, acc.totalLines + 1, acc.successCount, acc.failCount + 1⟩ rest

/-- Whole-file line processing of StatLogParser.process. -/
def processStatLines (hostname : String) (lines : List String) : Except Unit StatAcc :=
  processStatGo hostname ⟨[], 0, 0, 0⟩ lines

/-- The captures the ps pattern yields after pygrok type conversion
(pid and ppid carry :int). -/
structure PsCaps where
  pid : Int
  ppid : Int
  user : String
  elapsed : String
  command_line : String

/-- pygrok Grok.match for the ps pattern: unanchored search, then the
declared :int conversions via Python int(); a ValueError there escapes
Grok.match (pygrok catches only TypeError and KeyError), modelled as
Except.error. -/
def psMatch (line : String) : Except Unit (Option PsCaps) :=
  match grokSearch psAxoPat line with
  | none => Except.ok none
  | some caps => do
    let pid ← pyIntOrRaise (← expectKey caps "pid")
    let ppid ← pyIntOrRaise (← expectKey caps "ppid")
    let user ← expectKey caps "user"
    let elapsed ← expectKey caps "elapsed"
    let cmd ← expectKey caps "command_line"
    Except.ok (some ⟨pid, ppid, user, elapsed, cmd⟩)

/-- The per-match event construction of PsAxoLogParser.process.  The
collected_timestamp comes from the wall clock (datetime.utcnow), passed
in as nowIso. -/
def buildPsEvent (hostname nowIso : String) (c : PsCaps) : Json :=
  Json.obj
    [("principal", Json.obj
      [("process", Json.obj
        [("pid", Json.num c.pid),
         ("parent_pid", Json.num c.ppid),
         ("command_line", Json.str c.command_line)]),
       ("user", Json.obj [("user_id", Json.str c.user)]),
       ("hostname", Json.str hostname)]),
     ("metadata", Json.obj
      [("event_type", Json.str "PROCESS_ENUMERATION"),
       ("product_name", Json.str "Linux"),
       ("collected_timestamp", Json.str nowIso)]),
     ("intermediary", Json.obj [("namespace", Json.str "UnixArtifactCollector")])]

/-- The line loop of PsAxoLogParser.process. -/
def processPsGo (hostname nowIso : String) (acc : StatAcc) : List String → Except Unit StatAcc
  | [] => Except.ok acc
  | line :: rest =>
    match psMatch (pyStrip line) with
    | Except.error e => Except.error e
    | Except.ok (some c) =>
      processPsGo hostname nowIso
        ⟨acc.events ++ [buildPsEvent hostname nowIso c],
         acc.totalLines + 1, acc.successCount + 1, acc.failCount⟩ rest
    | Except.ok none =>
      processPsGo hostname nowIso
        ⟨acc.events, acc.totalLines + 1, acc.successCount, acc.failCount + 1⟩ rest

/-- Whole-file line processing of PsAxoLogParser.process. -/
def processPsLines (hostname nowIso : String) (lines : List String) : Except Unit StatAcc :=
  processPsGo hostname nowIso ⟨[], 0, 0, 0⟩ lines

/-! ### One HostJob end to end

Everything either parser's process method touches outside pure
computation is made explicit: the result of opening and reading the
source file, and whether the output-file and uploader writes succeed.
The try/except wrapping the whole method turns any failure into an
abandoned job with no outcome (the tracker queue receives nothing). -/

/-- The observable world of one job: reading the source file either
yields its lines or raises, and the output/uploader writes either
succeed or raise. -/
structure JobEnv where
  readResult : Except Unit (List String)
  writeOk : Bool

/-- The record a completed job puts on the tracker queue (the float
success_rate string of the source is not modelled; see the notes on the
success-rate claim). -/
structure Outcome where
  hostname : String
  uac_log_path : String
  output_file : String
  total_lines : Nat
  success_count : Nat
  fail_count : Nat

/-- StatLogParser.process under the outer try/except: any exception
(unreadable file, a line-loop exception, a write failure) abandons the
job and produces no outcome; otherwise exactly one outcome is queued. -/
def processStatJob (hostname uacLogPath outputPath : String) (env : JobEnv) : Option Outcome :=
  match env.readResult with
  | Except.error _ => none
  | Except.ok lines =>
    match processStatLines hostname lines with
    | Except.error _ => none
    | Except.ok acc =>
      if env.writeOk then
        some ⟨hostname, uacLogPath, outputPath, acc.totalLines, acc.successCount, acc.failCount⟩
      else none

/-- PsAxoLogParser.process under the outer try/except. -/
def processPsJob (hostname nowIso uacLogPath outputPath : String) (env : JobEnv) : Option Outcome :=
  match env.readResult with
  | Except.error _ => none
  | Except.ok lines =>
    match processPsLines hostname nowIso lines with
    | Except.error _ => none
    | Except.ok acc =>
      if env.writeOk then
        some ⟨hostname, uacLogPath, outputPath, acc.totalLines, acc.successCount, acc.failCount⟩
      else none

/-! ### Coordinator: job-list construction, worker pool, tracker merge -/

/-- One row of the evidence catalog (evidence_records.csv). -/
structure CatRecord where
  hostname : String
  uac_log_path : String

/-- One entry of the to_process work list built by main. -/
structure HostJob where
  bodyfile_path : String
  hostname : String
  uac_log_path : String
  output_path : String

/-- The directory walk of main, made explicit: whether the parent
directory of a record's uac_log_path exists, and the artifact files
found beneath it (with the collision-free output path chosen for each). -/
structure FsView where
  parentExists : CatRecord → Bool
  foundArtifacts : CatRecord → List (String × String)

/-- A persisted ledger row: field name to value, in column order. -/
abbrev Row : Type := List (String × String)

/-- load_tracker: the set of (hostname, uac_log_path) keys of the rows
of the tracker CSV (tracker rows always carry both columns). -/
def load_tracker (rows : List Row) : List (String × String) :=
  rows.map fun r => ((capGet r "hostname").getD "", (capGet r "uac_log_path").getD "")

/-- The to_process construction of main (lines 211-238 of src/body.py):
for every catalog record whose uac_log_path parent exists, every
artifact file found beneath it becomes a job.  The alreadyDone argument
is the set main binds from load_tracker; exactly as in the source, it is
not consulted. -/
def buildToProcess (records : List CatRecord) (alreadyDone : List (String × String))
    (fs : FsView) : List HostJob :=
  records.flatMap fun r =>
    if fs.parentExists r then
      (fs.foundArtifacts r).map fun bp => ⟨bp.1, r.hostname, r.uac_log_path, bp.2⟩
    else []

/-- What a worker pushes on the tracker queue, or the DONE sentinel the
coordinator pushes after the pool joins. -/
inductive QItem where
  | record : Row → QItem
  | done : QItem

/-- The dict a completed job queues, as the CSV row update_tracker
receives (numeric counters stringified as csv.DictWriter writes them). -/
def outcomeRow (o : Outcome) : Row :=
  [("hostname", o.hostname), ("uac_log_path", o.uac_log_path),
   ("output_file", o.output_file), ("total_lines", toString o.total_lines),
   ("success_count", toString o.success_count), ("fail_count", toString o.fail_count)]

/-- The queue-draining loop of update_tracker: collect records until
total are seen or the DONE sentinel arrives. -/
def drainQueue : List QItem → Nat → List Row
  | _, 0 => []
  | [], _ + 1 => []
  | QItem.record r :: qs, n + 1 => r :: drainQueue qs n
  | QItem.done :: _, _ + 1 => []

/-- The core tracker columns update_tracker always writes, in order. -/
def coreFieldnames : List String :=
  ["hostname", "uac_log_path", "output_file", "total_lines", "success_count",
   "fail_count", "success_rate"]

/-- Appending the unseen keys of one record to the fieldname list. -/
def addRowKeys (fns : List String) (row : Row) : List String :=
  row.foldl (fun acc kv => if kv.1 ∈ acc then acc else acc ++ [kv.1]) fns

/-- The dynamic fieldname computation of update_tracker: the fixed core
columns followed by any further keys of the processed records, in first
appearance order.  The existing file's header is not consulted. -/
def updateFieldnames (processed : List Row) : List String :=
  processed.foldl addRowKeys coreFieldnames

/-- The full row list update_tracker writes: the existing rows read back
from the tracker file, then every drained record appended. -/
def updateTrackerRows (existing : List Row) (queue : List QItem) (total : Nat) : List Row :=
  existing ++ drainQueue queue total

/-- csv.DictWriter.writerow: missing fields become the empty restval; a
key outside the header raises ValueError (modelled as Except.error). -/
def writeRow (fns : List String) (row : Row) : Except Unit (List String) :=
  if row.all (fun kv => kv.1 ∈ fns) then
    Except.ok (fns.map fun k => (capGet row k).getD "")
  else Except.error ()

/-- The writerow loop of update_tracker: rows written in order, aborted
by the first raising row. -/
def writeRows (fns : List String) : List Row → Except Unit (List (List String))
  | [] => Except.ok []
  | r :: rest => do
    let v ← writeRow fns r
    let vs ← writeRows fns rest
    Except.ok (v :: vs)

/-- The body of update_tracker after draining the queue: compute the
header from the processed records, then write every row. -/
def writeTracker (existing processed : List Row) : Except Unit (List (List String)) :=
  writeRows (updateFieldnames processed) (existing ++ processed)

/-- The worker pool: each job runs independently and the queue ends up
holding exactly the outcomes of the jobs that completed (order
irrelevant to the ledger's content; a failed job contributes nothing). -/
def runBatch (jobs : List (HostJob × JobEnv)) : List Outcome :=
  jobs.filterMap fun je => processStatJob je.1.hostname je.1.uac_log_path je.1.output_path je.2

/-- The worker pool of the ps variant's main, running
PsAxoLogParser.process on each job. -/
def runPsBatch (nowIso : String) (jobs : List (HostJob × JobEnv)) : List Outcome :=
  jobs.filterMap fun je =>
    processPsJob je.1.hostname nowIso je.1.uac_log_path je.1.output_path je.2

/-- The failure modes the outer try/except of StatLogParser.process
turns into an abandoned job: the source file cannot be read, the
output or uploader write raises, or the line loop raises. -/
def jobFails (hostname : String) (env : JobEnv) : Prop :=
  env.readResult = Except.error () ∨ env.writeOk = false ∨
  (∃ lines, env.readResult = Except.ok lines ∧
    processStatLines hostname lines = Except.error ())

/-- The failure modes the outer try/except of PsAxoLogParser.process
turns into an abandoned job: the source file cannot be read, the
output or uploader write raises, or the line loop raises (for this
parser also via the uncaught ValueError of pygrok's pid/ppid int
conversion). -/
def psJobFails (hostname nowIso : String) (env : JobEnv) : Prop :=
  env.readResult = Except.error () ∨ env.writeOk = false ∨
  (∃ lines, env.readResult = Except.ok lines ∧
    processPsLines hostname nowIso lines = Except.error ())

/-! ### Supporting lemmas -/

/-- The success/fail partition of the line counters is preserved by the
stat line loop. -/
theorem processStatGo_counters (hostname : String) (lines : List String) :
    ∀ (acc res : StatAcc), processStatGo hostname acc lines = Except.ok res →
      acc.successCount + acc.failCount = acc.totalLines →
      res.successCount + res.failCount = res.totalLines := by
  induction lines with
  | nil =>
    intro acc res h hacc
    simp only [processStatGo] at h
    cases h
    exact hacc
  | cons line rest ih =>
    intro acc res h hacc
    simp only [processStatGo] at h
    split at h
    · split at h
      · exact ih _ _ h (by dsimp; omega)
      · cases h
    · exact ih _ _ h (by dsimp; omega)

/-- The success/fail partition of the line counters is preserved by the
ps line loop. -/
theorem processPsGo_counters (hostname nowIso : String) (lines : List String) :
    ∀ (acc res : StatAcc), processPsGo hostname nowIso acc lines = Except.ok res →
      acc.successCount + acc.failCount = acc.totalLines →
      res.successCount + res.failCount = res.totalLines := by
  induction lines with
  | nil =>
    intro acc res h hacc
    simp only [processPsGo] at h
    cases h
    exact hacc
  | cons line rest ih =>
    intro acc res h hacc
    simp only [processPsGo] at h
    split at h
    · cases h
    · exact ih _ _ h (by dsimp; omega)
    · exact ih _ _ h (by dsimp; omega)

/-! ### Claim theorems -/

/-- C10: for every input file a per-host parser reads to completion
(the job yields an outcome), the reported counters satisfy
successCount + failCount = totalLines, for the stat parser and the ps
parser alike. -/
theorem counters_partition (hostname nowIso uacLogPath outputPath : String)
    (env : JobEnv) (o : Outcome) :
    (processStatJob hostname uacLogPath outputPath env = some o →
      o.success_count + o.fail_count = o.total_lines) ∧
    (processPsJob hostname nowIso uacLogPath outputPath env = some o →
      o.success_count + o.fail_count = o.total_lines) := by
  constructor
  · intro h
    unfold processStatJob at h
    split at h
    · cases h
    · split at h
      · cases h
      · split at h
        · cases h
          have hinv := processStatGo_counters hostname _ ⟨[], 0, 0, 0⟩ _
            (by assumption) (by dsimp)
          simpa using hinv
        · cases h
  · intro h
    unfold processPsJob at h
    split at h
    · cases h
    · split at h
      · cases h
      · split at h
        · cases h
          have hinv := processPsGo_counters hostname nowIso _ ⟨[], 0, 0, 0⟩ _
            (by assumption) (by dsimp)
          simpa using hinv
        · cases h

/-- C9: a HostJob hitting an unexpected failure (unreadable source,
write failure, or any other exception inside per-host processing) is
abandoned: it produces no ProcessingOutcome, the batch outcome list is
exactly that of the sibling jobs, and the merged ledger is the one the
sibling outcomes alone produce - for the stat parser and for the ps
parser alike. -/
theorem failed_job_isolated (j : HostJob) (nowIso : String) (env : JobEnv)
    (pre post : List (HostJob × JobEnv)) (existing : List Row) (total : Nat) :
    (jobFails j.hostname env →
      processStatJob j.hostname j.uac_log_path j.output_path env = none ∧
      runBatch (pre ++ (j, env) :: post) = runBatch pre ++ runBatch post ∧
      updateTrackerRows existing
          ((runBatch (pre ++ (j, env) :: post)).map (fun o => QItem.record (outcomeRow o))
            ++ [QItem.done]) total =
        updateTrackerRows existing
          ((runBatch pre ++ runBatch post).map (fun o => QItem.record (outcomeRow o))
            ++ [QItem.done]) total) ∧
    (psJobFails j.hostname nowIso env →
      processPsJob j.hostname nowIso j.uac_log_path j.output_path env = none ∧
      runPsBatch nowIso (pre ++ (j, env) :: post) =
        runPsBatch nowIso pre ++ runPsBatch nowIso post ∧
      updateTrackerRows existing
          ((runPsBatch nowIso (pre ++ (j, env) :: post)).map
            (fun o => QItem.record (outcomeRow o)) ++ [QItem.done]) total =
        updateTrackerRows existing
          ((runPsBatch nowIso pre ++ runPsBatch nowIso post).map
            (fun o => QItem.record (outcomeRow o)) ++ [QItem.done]) total) := by
  constructor
  · intro hfail
    have hnone : processStatJob j.hostname j.uac_log_path j.output_path env = none := by
      rcases hfail with h | h | ⟨lines, hr, hp⟩
      · simp [processStatJob, h]
      · unfold processStatJob
        split
        · rfl
        · split
          · rfl
          · simp [h]
      · simp [processStatJob, hr, hp]
    have hbatch : runBatch (pre ++ (j, env) :: post) = runBatch pre ++ runBatch post := by
      unfold runBatch
      rw [List.filterMap_append, List.filterMap_cons]
      simp only [hnone]
    exact ⟨hnone, hbatch, by rw [hbatch]⟩
  · intro hfail
    have hnone : processPsJob j.hostname nowIso j.uac_log_path j.output_path env = none := by
      rcases hfail with h | h | ⟨lines, hr, hp⟩
      · simp [processPsJob, h]
      · unfold processPsJob
        split
        · rfl
        · split
          · rfl
          · simp [h]
      · simp [processPsJob, hr, hp]
    have hbatch : runPsBatch nowIso (pre ++ (j, env) :: post) =
        runPsBatch nowIso pre ++ runPsBatch nowIso post := by
      unfold runPsBatch
      rw [List.filterMap_append, List.filterMap_cons]
      simp only [hnone]
    exact ⟨hnone, hbatch, by rw [hbatch]⟩

/-- Witness for C9: a job whose source file read raises, abandoned with
no outcome by either parser. -/
theorem failed_job_isolated_witness :
    processStatJob "hostA" "/ev/hostA/uac.log" "/out/o.json" ⟨Except.error (), true⟩ = none ∧
    processPsJob "hostA" "1970-01-01T00:00:00" "/ev/hostA/uac.log" "/out/o.json"
      ⟨Except.error (), true⟩ = none :=
  ⟨((failed_job_isolated ⟨"/ev/hostA/bodyfile.txt", "hostA", "/ev/hostA/uac.log", "/out/o.json"⟩
      "1970-01-01T00:00:00" ⟨Except.error (), true⟩ [] [] [] 0).1 (Or.inl rfl)).1,
   ((failed_job_isolated
      ⟨"/ev/hostA/ps_-axo_pid_user_etime_args.txt", "hostA", "/ev/hostA/uac.log", "/out/p.json"⟩
      "1970-01-01T00:00:00" ⟨Except.error (), true⟩ [] [] [] 0).2 (Or.inl rfl)).1⟩

/-- C5 (amended): a matched line whose size capture fails integer
conversion makes the event construction raise, the raise aborts the
whole line loop at that line, and the job is abandoned with no
ProcessingOutcome - the remaining lines are not processed and nothing
is emitted. -/
theorem size_conversion_aborts_job (hostname uacLogPath outputPath : String)
    (m : List (String × String)) (s line : String) (rest lines : List String)
    (acc : StatAcc) (env : JobEnv)
    (hsz : capGet m "size" = some s) (hpi : pythonInt s = none)
    (hmatch : cascadeMatch (pyStrip line) = some m)
    (hread : env.readResult = Except.ok lines)
    (hlines : processStatLines hostname lines = Except.error ()) :
    buildStatEvent hostname m = Except.error () ∧
    processStatGo hostname acc (line :: rest) = Except.error () ∧
    processStatJob hostname uacLogPath outputPath env = none := by
  have hbuild : buildStatEvent hostname m = Except.error () := by
    cases hik : capGet m "inode" with
    | none =>
      simp [buildStatEvent, statStringsOf, expectKey, hik, Except.map, Bind.bind, Except.bind]
    | some v =>
      simp [buildStatEvent, statStringsOf, expectKey, hik, hsz, pyIntOrRaise, hpi, Except.map,
        Bind.bind, Except.bind]
  refine ⟨hbuild, ?_, ?_⟩
  · simp only [processStatGo, hmatch, hbuild]
  · simp [processStatJob, hread, hlines]

/-- Witness for C5 (amended) at a concrete fractional-size line. -/
theorem size_conversion_aborts_job_witness :
    processStatJob "hostA" "/ev/uac.log" "/out/o.json"
      ⟨Except.ok ["1|/a|2|rw|0|0|1.5|100|100|100"], true⟩ = none :=
  (size_conversion_aborts_job "hostA" "/ev/uac.log" "/out/o.json"
    [("inode", "1"), ("path", "/a"), ("block_count", "2"), ("permissions", "rw"),
     ("uid", "0"), ("gid", "0"), ("size", "1.5"), ("mtime", "100"), ("ctime", "100"),
     ("atime", "100")]
    "1.5" "1|/a|2|rw|0|0|1.5|100|100|100" [] ["1|/a|2|rw|0|0|1.5|100|100|100"]
    ⟨[], 0, 0, 0⟩ ⟨Except.ok ["1|/a|2|rw|0|0|1.5|100|100|100"], true⟩
    rfl rfl rfl rfl rfl).2.2

/-- C5 counterexample: a two-line file whose first line matches the
grammar but carries the fractional size 1.5; the claim says the job
still emits its ProcessingOutcome, but the job is abandoned (none),
even though the line did match the cascade. -/
theorem size_failure_kills_whole_job :
    processStatJob "hostA" "/ev/uac.log" "/out/o.json"
      ⟨Except.ok ["1|/a|2|rw|0|0|1.5|100|100|100", "1|/b|2|rw|0|0|5|100|100|100"], true⟩
      = none ∧
    (cascadeMatch "1|/a|2|rw|0|0|1.5|100|100|100").isSome = true := ⟨rfl, rfl⟩

/-- The (hostname, uac_log_path) key of a ledger row. -/
def rowKey (r : Row) : String × String :=
  ((capGet r "hostname").getD "", (capGet r "uac_log_path").getD "")

/-- C2 counterexample: merging a new outcome whose key is already in the
existing rows yields two rows for that key - the new row is appended,
not substituted, refuting the at-most-one-row-per-key invariant. -/
theorem update_tracker_duplicates_key :
    (updateTrackerRows
      [[("hostname", "hostA"), ("uac_log_path", "/ev/uac.log"),
        ("output_file", "/out/o1.json"), ("total_lines", "2"), ("success_count", "2"),
        ("fail_count", "0"), ("success_rate", "100.00")]]
      [QItem.record
        [("hostname", "hostA"), ("uac_log_path", "/ev/uac.log"),
         ("output_file", "/out/o2.json"), ("total_lines", "3"), ("success_count", "1"),
         ("fail_count", "2"), ("success_rate", "33.33")],
       QItem.done] 1).countP
      (fun r => rowKey r == ("hostA", "/ev/uac.log")) = 2 := by decide

/-- C2 (amended): update_tracker appends the drained outcome rows after
the existing rows without any deduplication; for every key the merged
row multiset holds the old and the new occurrences together. -/
theorem update_tracker_appends (existing : List Row) (queue : List QItem) (total : Nat)
    (k : String × String) :
    updateTrackerRows existing queue total = existing ++ drainQueue queue total ∧
    (updateTrackerRows existing queue total).countP (fun r => rowKey r == k) =
      existing.countP (fun r => rowKey r == k) +
      (drainQueue queue total).countP (fun r => rowKey r == k) :=
  ⟨rfl, by rw [updateTrackerRows, List.countP_append]⟩

/-- Key membership after folding one row into the fieldname list. -/
theorem mem_addRowKeys (k : String) (row : Row) :
    ∀ fns, k ∈ addRowKeys fns row ↔ k ∈ fns ∨ k ∈ row.map Prod.fst := by
  induction row with
  | nil => intro fns; simp [addRowKeys]
  | cons kv rest ih =>
    intro fns
    have hstep : addRowKeys fns (kv :: rest)
        = addRowKeys (if kv.1 ∈ fns then fns else fns ++ [kv.1]) rest := rfl
    rw [hstep, ih]
    by_cases h : kv.1 ∈ fns
    · rw [if_pos h]
      simp only [List.map_cons, List.mem_cons]
      constructor
      · rintro (hf | hr)
        · exact Or.inl hf
        · exact Or.inr (Or.inr hr)
      · rintro (hf | rfl | hr)
        · exact Or.inl hf
        · exact Or.inl h
        · exact Or.inr hr
    · rw [if_neg h]
      simp only [List.mem_append, List.mem_singleton, List.map_cons, List.mem_cons]
      tauto

/-- Key membership in the fieldnames computed from the processed rows. -/
theorem mem_foldl_addRowKeys (k : String) (processed : List Row) :
    ∀ fns, k ∈ processed.foldl addRowKeys fns ↔
      k ∈ fns ∨ ∃ r ∈ processed, k ∈ r.map Prod.fst := by
  induction processed with
  | nil => intro fns; simp
  | cons r rest ih =>
    intro fns
    simp only [List.foldl_cons]
    rw [ih, mem_addRowKeys]
    simp only [List.mem_cons]
    constructor
    · rintro ((h | h) | ⟨r', hr', hk⟩)
      · exact Or.inl h
      · exact Or.inr ⟨r, Or.inl rfl, h⟩
      · exact Or.inr ⟨r', Or.inr hr', hk⟩
    · rintro (h | ⟨r', (rfl | hr'), hk⟩)
      · exact Or.inl (Or.inl h)
      · exact Or.inl (Or.inr hk)
      · exact Or.inr ⟨r', hr', hk⟩

/-- A row with a key outside the header makes the DictWriter row loop
raise. -/
theorem writeRows_error (fns : List String) :
    ∀ rows : List Row, (∃ r ∈ rows, ∃ kv ∈ r, kv.1 ∉ fns) →
      writeRows fns rows = Except.error () := by
  intro rows
  induction rows with
  | nil => rintro ⟨r, hr, -⟩; simp at hr
  | cons a rest ih =>
    rintro ⟨r, hr, kv, hkv, hnot⟩
    rcases List.mem_cons.mp hr with rfl | hr'
    · have hfail : writeRow fns r = Except.error () := by
        unfold writeRow
        rw [if_neg]
        intro hall
        exact hnot (by simpa using List.all_eq_true.mp hall kv hkv)
      simp [writeRows, hfail, Bind.bind, Except.bind]
    · cases hwa : writeRow fns a with
      | error e =>
        cases e
        simp [writeRows, hwa, Bind.bind, Except.bind]
      | ok v =>
        simp [writeRows, hwa, Bind.bind, Except.bind, ih ⟨r, hr', kv, hkv, hnot⟩]

/-- C8 (amended): the header update_tracker writes consists of the fixed
core columns plus exactly the extra fields of the newly processed
records; a column appearing only in the existing ledger file is not part
of the computed header, and writing a row that still carries such a
column raises in csv.DictWriter, aborting the merge. -/
theorem update_tracker_header (processed : List Row) (k : String) (existing : List Row) :
    (k ∈ updateFieldnames processed ↔
      k ∈ coreFieldnames ∨ ∃ r ∈ processed, k ∈ r.map Prod.fst) ∧
    ((∃ r ∈ existing ++ processed, ∃ kv ∈ r, kv.1 ∉ updateFieldnames processed) →
      writeTracker existing processed = Except.error ()) :=
  ⟨mem_foldl_addRowKeys k processed coreFieldnames,
   fun h => writeRows_error (updateFieldnames processed) (existing ++ processed) h⟩

/-- Witness for C8 (amended): the raising conjunct exercised on an
existing row whose extra column note is outside the computed header. -/
theorem update_tracker_header_witness :
    writeTracker
      [[("hostname", "hostA"), ("uac_log_path", "/ev/uac.log"),
        ("output_file", "/out/o1.json"), ("total_lines", "2"), ("success_count", "2"),
        ("fail_count", "0"), ("success_rate", "100.00"), ("note", "keep")]]
      [[("hostname", "hostB"), ("uac_log_path", "/ev/b.log"),
        ("output_file", "/out/o2.json"), ("total_lines", "1"), ("success_count", "1"),
        ("fail_count", "0"), ("success_rate", "100.00")]] = Except.error () :=
  (update_tracker_header
    [[("hostname", "hostB"), ("uac_log_path", "/ev/b.log"),
      ("output_file", "/out/o2.json"), ("total_lines", "1"), ("success_count", "1"),
      ("fail_count", "0"), ("success_rate", "100.00")]]
    "note"
    [[("hostname", "hostA"), ("uac_log_path", "/ev/uac.log"),
      ("output_file", "/out/o1.json"), ("total_lines", "2"), ("success_count", "2"),
      ("fail_count", "0"), ("success_rate", "100.00"), ("note", "keep")]]).2
    (by decide)

/-- C8 counterexample: an existing ledger with an extra column named
note merged with one ordinary new outcome: the written header does not
contain note, and csv.DictWriter raises on the existing row, refuting
the schema-append-only claim. -/
theorem ledger_column_dropped :
    ¬ ("note" ∈ updateFieldnames
        [[("hostname", "hostB"), ("uac_log_path", "/ev/b.log"),
          ("output_file", "/out/o2.json"), ("total_lines", "1"), ("success_count", "1"),
          ("fail_count", "0"), ("success_rate", "100.00")]]) ∧
    writeTracker
      [[("hostname", "hostA"), ("uac_log_path", "/ev/uac.log"),
        ("output_file", "/out/o1.json"), ("total_lines", "2"), ("success_count", "2"),
        ("fail_count", "0"), ("success_rate", "100.00"), ("note", "keep")]]
      [[("hostname", "hostB"), ("uac_log_path", "/ev/b.log"),
        ("output_file", "/out/o2.json"), ("total_lines", "1"), ("success_count", "1"),
        ("fail_count", "0"), ("success_rate", "100.00")]] = Except.error () :=
  ⟨by decide, rfl⟩

/-- C1: main binds the ledger key set from load_tracker but never
consults it: with a catalog record whose (hostname, uac_log_path) key is
already in the tracker, the built job list still contains a job for that
key, so the job is re-dispatched rather than filtered out. -/
theorem jobs_not_filtered_by_ledger :
    buildToProcess [⟨"hostA", "/ev/hostA/uac.log"⟩]
      (load_tracker
        [[("hostname", "hostA"), ("uac_log_path", "/ev/hostA/uac.log"),
          ("output_file", "/out/o1.json"), ("total_lines", "2"), ("success_count", "2"),
          ("fail_count", "0"), ("success_rate", "100.00")]])
      ⟨fun _ => true, fun _ => [("/ev/hostA/bodyfile.txt", "/out/bodyfile_output_hostA.json")]⟩ =
      [⟨"/ev/hostA/bodyfile.txt", "hostA", "/ev/hostA/uac.log",
        "/out/bodyfile_output_hostA.json"⟩] ∧
    ("hostA", "/ev/hostA/uac.log") ∈ load_tracker
      [[("hostname", "hostA"), ("uac_log_path", "/ev/hostA/uac.log"),
        ("output_file", "/out/o1.json"), ("total_lines", "2"), ("success_count", "2"),
        ("fail_count", "0"), ("success_rate", "100.00")]] :=
  ⟨rfl, by decide⟩

/-- The principal.file group of a built event. -/
def principalFile (ev : Json) : Option Json :=
  (jsonGet ev "principal").bind fun p => jsonGet p "file"

/-- The attribute names in the additional group of a built event. -/
def additionalKeys (ev : Json) : List String :=
  jsonKeys ((jsonGet ev "additional").getD Json.null)

/-- C3: on a symlink line, the plain-path grammar (tried first) already
matches because DATA absorbs the whole A -> B text, so the cascade
returns path = "/a -> /b" and no symlink capture; the built event
carries full_path = "/a -> /b" and no symlink attribute, while the
symlink grammar itself (shadowed, tried second) would have split source
and target. -/
theorem symlink_grammar_shadowed :
    cascadeMatch "1|/a -> /b|2|rw|0|0|5|100|100|100|100" = some
      [("inode", "1"), ("path", "/a -> /b"), ("block_count", "2"), ("permissions", "rw"),
       ("uid", "0"), ("gid", "0"), ("size", "5"), ("mtime", "100"), ("ctime", "100"),
       ("atime", "100"), ("btime", "100")] ∧
    capGet
      [("inode", "1"), ("path", "/a -> /b"), ("block_count", "2"), ("permissions", "rw"),
       ("uid", "0"), ("gid", "0"), ("size", "5"), ("mtime", "100"), ("ctime", "100"),
       ("atime", "100"), ("btime", "100")] "symlink_path" = none ∧
    (buildStatEvent "hostA"
      [("inode", "1"), ("path", "/a -> /b"), ("block_count", "2"), ("permissions", "rw"),
       ("uid", "0"), ("gid", "0"), ("size", "5"), ("mtime", "100"), ("ctime", "100"),
       ("atime", "100"), ("btime", "100")]).map
      (fun ev => (principalFile ev).bind fun f => jsonGet f "full_path") =
      Except.ok (some (Json.str "/a -> /b")) ∧
    (buildStatEvent "hostA"
      [("inode", "1"), ("path", "/a -> /b"), ("block_count", "2"), ("permissions", "rw"),
       ("uid", "0"), ("gid", "0"), ("size", "5"), ("mtime", "100"), ("ctime", "100"),
       ("atime", "100"), ("btime", "100")]).map additionalKeys =
      Except.ok ["block_count", "permissions", "uid", "gid", "metadata_change_time"] ∧
    grokSearch statPat1 "1|/a -> /b|2|rw|0|0|5|100|100|100|100" = some
      [("inode", "1"), ("symlink_path", "/a"), ("symlink_target", "/b"),
       ("block_count", "2"), ("permissions", "rw"), ("uid", "0"), ("gid", "0"),
       ("size", "5"), ("mtime", "100"), ("ctime", "100"), ("atime", "100"),
       ("btime", "100")] :=
  ⟨rfl, rfl, rfl, rfl, rfl⟩

/-- C4 counterexample: a file-metadata line without the trailing
birth-time field parses via the fallback grammar, but the built event
carries create_time with the JSON value null in the principal.file
group - the attribute is present as null, not omitted. -/
theorem create_time_serialized_null :
    (cascadeMatch "1|/a|2|rw|0|0|5|100|100|100").map
      (fun m => (buildStatEvent "hostA" m).map
        (fun ev => (principalFile ev).bind fun f => jsonGet f "create_time")) =
      some (Except.ok (some Json.null)) := rfl

/-- C4 (amended): the null-stripping comprehension applies to the
additional group only, whose serialized attributes are never null; a
line lacking the birth-time field still parses via the fallback grammar,
but its create_time attribute in principal.file is serialized as null
rather than omitted. -/
theorem optional_attribute_handling :
    (cascadeMatch "1|/a|2|rw|0|0|5|100|100|100" = some
      [("inode", "1"), ("path", "/a"), ("block_count", "2"), ("permissions", "rw"),
       ("uid", "0"), ("gid", "0"), ("size", "5"), ("mtime", "100"), ("ctime", "100"),
       ("atime", "100")]) ∧
    capGet
      [("inode", "1"), ("path", "/a"), ("block_count", "2"), ("permissions", "rw"),
       ("uid", "0"), ("gid", "0"), ("size", "5"), ("mtime", "100"), ("ctime", "100"),
       ("atime", "100")] "btime" = none ∧
    (buildStatEvent "hostA"
      [("inode", "1"), ("path", "/a"), ("block_count", "2"), ("permissions", "rw"),
       ("uid", "0"), ("gid", "0"), ("size", "5"), ("mtime", "100"), ("ctime", "100"),
       ("atime", "100")]).map
      (fun ev => (principalFile ev).bind fun f => jsonGet f "create_time") =
      Except.ok (some Json.null) ∧
    (∀ (hostname : String) (m : List (String × String)) (ev : Json)
        (flds : List (String × Json)),
      buildStatEvent hostname m = Except.ok ev →
      jsonGet ev "additional" = some (Json.obj flds) →
      ∀ kv ∈ flds, kv.2 ≠ Json.null) := by
  refine ⟨rfl, rfl, rfl, ?_⟩
  intro hostname m ev flds hb hadd kv hkv
  unfold buildStatEvent at hb
  cases hss : statStringsOf m with
  | error e => rw [hss] at hb; cases hb
  | ok ss =>
    rw [hss] at hb
    simp only [Except.map] at hb
    cases hb
    simp [mkStatEvent, jsonGet, List.find?] at hadd
    rw [← hadd] at hkv
    rcases List.mem_filter.mp hkv with ⟨hmem, hpred⟩
    intro hn
    rw [hn] at hpred
    simp at hpred

/-- Witness for C4 (amended): the general no-null conjunct applied to
the concrete fallback-line event. -/
theorem optional_attribute_handling_witness :
    ∀ kv ∈ [(("block_count" : String), Json.str "2"), ("permissions", Json.str "rw"),
      ("uid", Json.str "0"), ("gid", Json.str "0"),
      ("metadata_change_time", Json.str "1970-01-01T00:01:40")], kv.2 ≠ Json.null :=
  optional_attribute_handling.2.2.2 "hostA"
    [("inode", "1"), ("path", "/a"), ("block_count", "2"), ("permissions", "rw"),
     ("uid", "0"), ("gid", "0"), ("size", "5"), ("mtime", "100"), ("ctime", "100"),
     ("atime", "100")] _ _ rfl rfl

/-- Witness for C10: a one-line file that parses, giving counters
1 + 0 = 1. -/
theorem counters_partition_witness :
    (⟨"hostA", "/ev/uac.log", "/out/o.json", 1, 1, 0⟩ : Outcome).success_count +
      (⟨"hostA", "/ev/uac.log", "/out/o.json", 1, 1, 0⟩ : Outcome).fail_count =
      (⟨"hostA", "/ev/uac.log", "/out/o.json", 1, 1, 0⟩ : Outcome).total_lines :=
  (counters_partition "hostA" "1970-01-01T00:00:00" "/ev/uac.log" "/out/o.json"
    ⟨Except.ok ["1|/a|2|rw|0|0|5|100|100|100"], true⟩
    ⟨"hostA", "/ev/uac.log", "/out/o.json", 1, 1, 0⟩).1 rfl
